import Mathlib

/-!
Verification of the osfstorage upload-lifecycle specification against the
code of `website/addons/osfstorage/views.py`.

The view layer (webhook handlers, error-to-HTTP mapping, read-path version
resolution) is embedded directly from the source.  The model module
(`website.addons.osfstorage.model`: `FileRecord`, `create_pending_version`,
`resolve_pending_version`, `cancel_pending_version`, `get_or_create`,
`find_by_path`) is not part of the given sources, so those operations are
modelled from the specification text (sections 3 and 4.1) and marked as such.

Python exceptions are embedded as `Except` results; an exception that no
handler in the embedded code catches is a distinct `PyException` value
(`keyError`, `indexError`, `modelError`) so that "handled HTTP error
response" and "unhandled exception" are distinguishable outcomes.
-/

namespace OsfStorage

/-- Modelled from the spec: the three states of a `FileVersion`
(`PENDING`, `COMPLETE`, `FAILED`). -/
inductive Status
  | PENDING
  | COMPLETE
  | FAILED
deriving DecidableEq, Repr

/-- Modelled from the spec: a `FileVersion` holds creator identity, the
upload signature token, its state, and location/metadata populated on
success. -/
structure FileVersion where
  creator : String
  signature : String
  status : Status
  location : Option String
  metadata : Option String
deriving DecidableEq, Repr

/-- Modelled from the spec: a `FileRecord` holds an ordered sequence of
`FileVersion` entries (1-indexed when exposed). -/
structure FileRecord where
  versions : List FileVersion
deriving DecidableEq, Repr

/-- The exception classes of `website.addons.osfstorage.errors` raised by
the model layer. -/
inductive ModelError
  | PathLockedError
  | SignatureConsumedError
  | VersionNotPendingError
  | PendingSignatureMismatchError
  | InvalidVersionError
deriving DecidableEq, Repr

/-- `True` when some version of the record is in `PENDING` state. -/
def hasPendingVersion (r : FileRecord) : Bool :=
  r.versions.any (fun v => decide (v.status = Status.PENDING))

/-- `True` when the token has already been used to resolve (complete or
fail) a prior version of the record. -/
def signatureConsumed (r : FileRecord) (sig : String) : Bool :=
  r.versions.any
    (fun v => decide (v.status ≠ Status.PENDING) && decide (v.signature = sig))

/-- Modelled from the spec: `createPendingVersion(record, actor,
signatureToken)`.  Fails with `PathLockedError` when a pending version
already exists, with `SignatureConsumedError` when the token was already
used to resolve a prior version; otherwise appends a new `PENDING` version
with the given creator and token. -/
def create_pending_version (r : FileRecord) (creator sig : String) :
    Except ModelError FileRecord :=
  if hasPendingVersion r then
    .error .PathLockedError
  else if signatureConsumed r sig then
    .error .SignatureConsumedError
  else
    .ok ⟨r.versions ++ [⟨creator, sig, Status.PENDING, none, none⟩]⟩

/-- Modelled from the spec: `resolvePendingVersion(record, signatureToken,
location, metadata)`.  The record's current version is `versions[-1]`;
fails with `VersionNotPendingError` when it is absent or not `PENDING`,
with `PendingSignatureMismatchError` when the token differs from the one
stored on the pending version; otherwise transitions it to `COMPLETE`
storing the location and metadata. -/
def resolve_pending_version (r : FileRecord) (sig loc meta : String) :
    Except ModelError FileRecord :=
  match r.versions.getLast? with
  | none => .error .VersionNotPendingError
  | some v =>
    if v.status ≠ Status.PENDING then
      .error .VersionNotPendingError
    else if sig ≠ v.signature then
      .error .PendingSignatureMismatchError
    else
      .ok ⟨r.versions.dropLast ++
        [{ v with status := Status.COMPLETE,
                  location := some loc, metadata := some meta }]⟩

/-- Modelled from the spec: `cancelPendingVersion(record, signatureToken)`.
Same precondition/error pair as resolution; on success transitions the
pending version to `FAILED`. -/
def cancel_pending_version (r : FileRecord) (sig : String) :
    Except ModelError FileRecord :=
  match r.versions.getLast? with
  | none => .error .VersionNotPendingError
  | some v =>
    if v.status ≠ Status.PENDING then
      .error .VersionNotPendingError
    else if sig ≠ v.signature then
      .error .PendingSignatureMismatchError
    else
      .ok ⟨r.versions.dropLast ++ [{ v with status := Status.FAILED }]⟩

/-- The persisted store of file records of a node addon, keyed by path. -/
abbrev Store := List (String × FileRecord)

/-- Modelled from the spec: `FileRecord.find_by_path` looks up an existing
record for the path, `None` when absent. -/
def find_by_path (path : String) (store : Store) : Option FileRecord :=
  store.lookup path

/-- Modelled from the spec: `FileRecord.get_or_create` looks up an existing
record for the path and creates and persists an empty one when absent. -/
def get_or_create (path : String) (store : Store) : FileRecord × Store :=
  match store.lookup path with
  | some r => (r, store)
  | none => (⟨[]⟩, (path, FileRecord.mk []) :: store)

/-- Persist an updated record under its path. -/
def setRecord (path : String) (r : FileRecord) (store : Store) : Store :=
  store.map (fun pr => if pr.1 = path then (path, r) else pr)

/-! ## The view layer, embedded from `website/addons/osfstorage/views.py` -/

/-- The `data` dict attached to an `HTTPError`: either the
`{'status': 'error', 'reason': ...}` shape built by `make_error`, or the
`message_short`/`message_long` shape of the module-level read errors. -/
inductive ErrData
  | reasonData (status reason : String)
  | messageData (message_short message_long : String)
deriving DecidableEq, Repr

/-- `framework.exceptions.HTTPError`: an HTTP status code with optional
attached data. -/
structure HTTPError where
  code : Nat
  data : Option ErrData
deriving DecidableEq, Repr

def BAD_REQUEST : Nat := 400
def NOT_FOUND : Nat := 404
def CONFLICT : Nat := 409

/-- `make_error(code, reason)` from views.py. -/
def make_error (code : Nat) (reason : String) : HTTPError :=
  ⟨code, some (.reasonData "error" reason)⟩

/-- An exception escaping a view function: a handled `HTTPError`, or an
exception no handler catches (`KeyError`, `IndexError`, an uncaught model
error). -/
inductive PyException
  | httpError (e : HTTPError)
  | keyError (key : String)
  | indexError
  | modelError (e : ModelError)
deriving DecidableEq, Repr

/-- The parts of the upload-start webhook JSON body the hook reads:
`payload['uploadPayload']['extra']['user']` and
`payload['uploadSignature']`, each `none` when the key path is absent. -/
structure StartPayload where
  user : Option String
  uploadSignature : Option String
deriving DecidableEq, Repr

/-- `validate_start_hook_payload(payload)` from views.py: a missing key
raises `HTTPError(BAD_REQUEST)`, and so does a user id that does not load
an existing `User`.  The set of existing users is the `users` list; a user
is represented by their id. -/
def validate_start_hook_payload (users : List String) (p : StartPayload) :
    Except HTTPError (String × String) :=
  match p.user, p.uploadSignature with
  | some uid, some sig =>
    if users.contains uid then .ok (uid, sig)
    else .error ⟨BAD_REQUEST, none⟩
  | _, _ => .error ⟨BAD_REQUEST, none⟩

/-- `osf_storage_upload_start_hook` from views.py.  `sigOk` is the result
of `signer.verify_payload` inside `get_payload_from_request`; the hook
returns the resulting store together with the response or the exception
raised. -/
def osf_storage_upload_start_hook (users : List String) (sigOk : Bool)
    (payload : StartPayload) (path : String) (store : Store) :
    Store × Except PyException String :=
  if !sigOk then
    (store, .error (.httpError (make_error BAD_REQUEST "Invalid signature")))
  else
    match validate_start_hook_payload users payload with
    | .error e => (store, .error (.httpError e))
    | .ok (user, upload_signature) =>
      let rs := get_or_create path store
      match create_pending_version rs.1 user upload_signature with
      | .error .PathLockedError =>
        (rs.2, .error (.httpError (make_error CONFLICT "File path is locked")))
      | .error .SignatureConsumedError =>
        (rs.2, .error (.httpError (make_error BAD_REQUEST "Signature consumed")))
      | .error e => (rs.2, .error (.modelError e))
      | .ok r => (setRecord path r rs.2, .ok "success")

/-- `handle_finish_errors` from views.py as a mapping on the exception a
model method raised: `VersionNotPendingError` and
`PendingSignatureMismatchError` become `HTTPError`s, every other exception
propagates uncaught. -/
def handle_finish_errors (e : ModelError) : PyException :=
  match e with
  | .VersionNotPendingError => .httpError (make_error BAD_REQUEST "No pending upload")
  | .PendingSignatureMismatchError =>
    .httpError (make_error BAD_REQUEST "Invalid upload signature")
  | e => .modelError e

/-- The parts of the upload-finish webhook JSON body the hook reads, each
`none` when the key is absent. -/
structure FinishPayload where
  status : Option String
  uploadSignature : Option String
  location : Option String
  metadata : Option String
deriving DecidableEq, Repr

/-- `finish_upload_success(file_record, payload)` from views.py: reads
`payload['uploadSignature']`, `payload['location']`, `payload['metadata']`
(each a `KeyError` when absent — there is no handler for `KeyError` here)
and resolves the pending version, mapping model errors through
`handle_finish_errors`. -/
def finish_upload_success (record : FileRecord) (payload : FinishPayload) :
    Except PyException FileRecord :=
  match payload.uploadSignature with
  | none => .error (.keyError "uploadSignature")
  | some sig =>
    match payload.location with
    | none => .error (.keyError "location")
    | some loc =>
      match payload.metadata with
      | none => .error (.keyError "metadata")
      | some meta =>
        match resolve_pending_version record sig loc meta with
        | .error e => .error (handle_finish_errors e)
        | .ok r => .ok r

/-- `finish_upload_error(file_record, payload)` from views.py. -/
def finish_upload_error (record : FileRecord) (payload : FinishPayload) :
    Except PyException FileRecord :=
  match payload.uploadSignature with
  | none => .error (.keyError "uploadSignature")
  | some sig =>
    match cancel_pending_version record sig with
    | .error e => .error (handle_finish_errors e)
    | .ok r => .ok r

/-- `osf_storage_upload_finish_hook` from views.py.  `sigOk` is the result
of `signer.verify_payload` inside `get_payload_from_request`. -/
def osf_storage_upload_finish_hook (path : String) (sigOk : Bool)
    (payload : FinishPayload) (store : Store) :
    Store × Except PyException String :=
  if !sigOk then
    (store, .error (.httpError (make_error BAD_REQUEST "Invalid signature")))
  else if !(payload.status = some "success" ∨ payload.status = some "error" : Bool) then
    (store, .error (.httpError (make_error BAD_REQUEST "Invalid status")))
  else
    match find_by_path path store with
    | none => (store, .error (.httpError ⟨NOT_FOUND, none⟩))
    | some record =>
      if payload.status = some "success" then
        match finish_upload_success record payload with
        | .error e => (store, .error e)
        | .ok r => (setRecord path r store, .ok "success")
      else
        match finish_upload_error record payload with
        | .error e => (store, .error e)
        | .ok r => (setRecord path r store, .ok "success")

/-- The natural number denoted by a list of decimal digit characters. -/
def decDigitsToNat (cs : List Char) : Nat :=
  cs.foldl (fun acc c => acc * 10 + (c.toNat - 48)) 0

/-- Model of Python `int(s)` on the strings the version query parameter can
hold: an optional sign followed by one or more decimal digits converts,
anything else raises `ValueError` (`none`). -/
def pyInt (s : String) : Option Int :=
  let signed : Bool × List Char :=
    match s.data with
    | '-' :: rest => (true, rest)
    | '+' :: rest => (false, rest)
    | cs => (false, cs)
  if signed.2 ≠ [] ∧ signed.2.all Char.isDigit then
    some (if signed.1 then -(decDigitsToNat signed.2 : Int)
          else (decDigitsToNat signed.2 : Int))
  else
    none

/-- `parse_version_specifier(version_str)` from views.py: `int(None)`
raises `TypeError` and a non-numeric string raises `ValueError`, both
turned into `InvalidVersionError`, as is any integer below 1. -/
def parse_version_specifier (version_str : Option String) :
    Except ModelError Int :=
  match version_str with
  | none => .error .InvalidVersionError
  | some s =>
    match pyInt s with
    | none => .error .InvalidVersionError
    | some i => if i < 1 then .error .InvalidVersionError else .ok i

/-- `UPLOAD_PENDING_ERROR` from views.py. -/
def UPLOAD_PENDING_ERROR : HTTPError :=
  ⟨NOT_FOUND, some (.messageData "File upload in progress"
    "File upload is in progress. Please check back later to retrieve this file.")⟩

/-- `UPLOAD_FAILED_ERROR` from views.py. -/
def UPLOAD_FAILED_ERROR : HTTPError :=
  ⟨NOT_FOUND, some (.messageData "File upload failed"
    "File upload has failed. If this should not have occurred and the issue persists, please report it to <a href=\"mailto:support@osf.io\">support@osf.io</a>.")⟩

/-- `handle_incomplete_version(file_version)` from views.py: the
`HTTPError` it raises, `none` when the version is servable. -/
def handle_incomplete_version (v : FileVersion) : Option HTTPError :=
  if v.status = Status.PENDING then some UPLOAD_PENDING_ERROR
  else if v.status = Status.FAILED then some UPLOAD_FAILED_ERROR
  else none

/-- `get_version_helper(file_record, version_str)` from views.py.  With no
specifier it evaluates `file_record.versions[-1]`, which on an empty list
raises an uncaught `IndexError`; with a specifier, an invalid one becomes
a bad-request and a positive out-of-range index an `HTTPError(NOT_FOUND)`. -/
def get_version_helper (record : FileRecord) (version_str : Option String) :
    Except PyException (Int × FileVersion) :=
  match version_str with
  | none =>
    match record.versions.getLast? with
    | none => .error .indexError
    | some v => .ok ((record.versions.length : Int), v)
  | some s =>
    match parse_version_specifier (some s) with
    | .error _ => .error (.httpError (make_error BAD_REQUEST "Invalid version"))
    | .ok idx =>
      match record.versions.get? (idx - 1).toNat with
      | some v => .ok (idx, v)
      | none => .error (.httpError ⟨NOT_FOUND, none⟩)

/-- `get_version(path, node_settings, version_str)` from views.py. -/
def get_version (path : String) (store : Store) (version_str : Option String) :
    Except PyException (Int × FileVersion × FileRecord) :=
  match find_by_path path store with
  | none => .error (.httpError ⟨NOT_FOUND, none⟩)
  | some record =>
    match get_version_helper record version_str with
    | .error e => .error e
    | .ok iv =>
      match handle_incomplete_version iv.2 with
      | some e => .error (.httpError e)
      | none => .ok (iv.1, iv.2, record)

/-! ## Reachable states of the upload lifecycle -/

/-- An operation of the upload lifecycle addressed to a path of the store. -/
inductive Op
  | getOrCreate (path : String)
  | createPending (path actor sig : String)
  | resolvePending (path sig loc meta : String)
  | cancelPending (path sig : String)

/-- Apply a model operation to the record at `path`; an error leaves the
store unchanged, success persists the updated record. -/
def applyRecordOp (store : Store) (path : String)
    (f : FileRecord → Except ModelError FileRecord) : Store :=
  match store.lookup path with
  | none => store
  | some r =>
    match f r with
    | .error _ => store
    | .ok r' => setRecord path r' store

/-- One step of the lifecycle state machine. -/
def stepOp (store : Store) (op : Op) : Store :=
  match op with
  | .getOrCreate path => (get_or_create path store).2
  | .createPending path actor sig =>
    applyRecordOp store path (fun r => create_pending_version r actor sig)
  | .resolvePending path sig loc meta =>
    applyRecordOp store path (fun r => resolve_pending_version r sig loc meta)
  | .cancelPending path sig =>
    applyRecordOp store path (fun r => cancel_pending_version r sig)

/-- The store reached by running a sequence of operations from the empty
store. -/
def runOps (ops : List Op) : Store := ops.foldl stepOp []

/-- The number of versions of the record in `PENDING` state. -/
def pendingCount (r : FileRecord) : Nat :=
  r.versions.countP (fun v => decide (v.status = Status.PENDING))

/-- Every record of the store has at most one pending version. -/
def StoreInv (s : Store) : Prop :=
  ∀ p r, (p, r) ∈ s → pendingCount r ≤ 1

/-- A concrete record holding exactly one pending version, used to
evaluate the development at concrete inputs. -/
def pendingOnlyRecord : FileRecord :=
  ⟨[⟨"u", "t", Status.PENDING, none, none⟩]⟩

/-! ## Helper lemmas -/

theorem mem_of_lookup_eq_some {l : Store} {k : String} {v : FileRecord}
    (h : l.lookup k = some v) : (k, v) ∈ l := by
  induction l with
  | nil => simp [List.lookup] at h
  | cons a l ih =>
    rw [List.lookup] at h
    by_cases hk : k = a.1
    · simp [hk] at h
      subst hk
      simp [← h]
    · have hb : (k == a.1) = false := by simp [hk]
      rw [hb] at h
      exact List.mem_cons_of_mem _ (ih h)

theorem pendingCount_eq_zero_of_not_hasPending {r : FileRecord}
    (h : hasPendingVersion r = false) : pendingCount r = 0 := by
  rw [hasPendingVersion, List.any_eq_false] at h
  rw [pendingCount, List.countP_eq_zero]
  exact h

theorem create_pending_version_ok {r r' : FileRecord} {a s : String}
    (h : create_pending_version r a s = .ok r') : pendingCount r' = 1 := by
  rw [create_pending_version] at h
  by_cases hp : hasPendingVersion r
  · simp [hp] at h
  · rw [Bool.not_eq_true] at hp
    by_cases hc : signatureConsumed r s
    · simp [hp, hc] at h
    · simp only [hp, hc, Bool.false_eq_true, if_false, Except.ok.injEq] at h
      subst h
      have h0 : List.countP (fun v => decide (v.status = Status.PENDING))
          r.versions = 0 := pendingCount_eq_zero_of_not_hasPending hp
      simp [pendingCount, List.countP_append, List.countP_cons, h0]

theorem pendingCount_resolve_le {r r' : FileRecord} {s l m : String}
    (h : resolve_pending_version r s l m = .ok r') :
    pendingCount r' ≤ pendingCount r := by
  rw [resolve_pending_version] at h
  cases hv : r.versions.getLast? with
  | none => rw [hv] at h; exact absurd h (by simp)
  | some v =>
    rw [hv] at h
    by_cases hst : v.status = Status.PENDING
    · simp only [hst, ne_eq, not_true_eq_false, if_false] at h
      by_cases hs : s = v.signature
      · simp only [hs, ne_eq, not_true_eq_false, if_false,
          Except.ok.injEq] at h
        subst h
        simp only [pendingCount]
        conv_rhs => rw [← List.dropLast_append_getLast? v hv]
        simp [List.countP_append, List.countP_cons]
      · simp [hs] at h
    · simp [hst] at h

theorem pendingCount_cancel_le {r r' : FileRecord} {s : String}
    (h : cancel_pending_version r s = .ok r') :
    pendingCount r' ≤ pendingCount r := by
  rw [cancel_pending_version] at h
  cases hv : r.versions.getLast? with
  | none => rw [hv] at h; exact absurd h (by simp)
  | some v =>
    rw [hv] at h
    by_cases hst : v.status = Status.PENDING
    · simp only [hst, ne_eq, not_true_eq_false, if_false] at h
      by_cases hs : s = v.signature
      · simp only [hs, ne_eq, not_true_eq_false, if_false,
          Except.ok.injEq] at h
        subst h
        simp only [pendingCount]
        conv_rhs => rw [← List.dropLast_append_getLast? v hv]
        simp [List.countP_append, List.countP_cons]
      · simp [hs] at h
    · simp [hst] at h

theorem storeInv_setRecord {store : Store} {path : String} {r' : FileRecord}
    (hinv : StoreInv store) (hr : pendingCount r' ≤ 1) :
    StoreInv (setRecord path r' store) := by
  intro p r hmem
  rw [setRecord, List.mem_map] at hmem
  obtain ⟨pr, hpr, heq⟩ := hmem
  by_cases hp : pr.1 = path
  · simp only [hp, if_true] at heq
    injection heq with h1 h2
    rw [← h2]
    exact hr
  · simp only [hp, if_false] at heq
    rw [heq] at hpr
    exact hinv p r hpr

theorem storeInv_applyRecordOp {store : Store} {path : String}
    {f : FileRecord → Except ModelError FileRecord}
    (hinv : StoreInv store)
    (hf : ∀ r r', f r = .ok r' → pendingCount r ≤ 1 → pendingCount r' ≤ 1) :
    StoreInv (applyRecordOp store path f) := by
  rw [applyRecordOp]
  cases hl : store.lookup path with
  | none => exact hinv
  | some r =>
    show StoreInv (match f r with
      | .error _ => store
      | .ok r' => setRecord path r' store)
    cases hfr : f r with
    | error e => exact hinv
    | ok r' =>
      have hr : pendingCount r ≤ 1 := hinv path r (mem_of_lookup_eq_some hl)
      exact storeInv_setRecord hinv (hf r r' hfr hr)

theorem storeInv_stepOp {store : Store} (op : Op) (hinv : StoreInv store) :
    StoreInv (stepOp store op) := by
  cases op with
  | getOrCreate path =>
    rw [stepOp, get_or_create]
    cases hl : store.lookup path with
    | some r => exact hinv
    | none =>
      intro p r hmem
      rcases List.mem_cons.mp hmem with h | h
      · injection h with h1 h2
        subst h2
        simp [pendingCount]
      · exact hinv p r h
  | createPending path actor sig =>
    exact storeInv_applyRecordOp hinv
      (fun r r' h _ => le_of_eq (create_pending_version_ok h))
  | resolvePending path sig loc meta =>
    exact storeInv_applyRecordOp hinv
      (fun r r' h hr => le_trans (pendingCount_resolve_le h) hr)
  | cancelPending path sig =>
    exact storeInv_applyRecordOp hinv
      (fun r r' h hr => le_trans (pendingCount_cancel_le h) hr)

theorem storeInv_foldl (ops : List Op) :
    ∀ store : Store, StoreInv store → StoreInv (ops.foldl stepOp store) := by
  induction ops with
  | nil => intro store h; exact h
  | cons op ops ih =>
    intro store h
    exact ih (stepOp store op) (storeInv_stepOp op h)

theorem handle_incomplete_version_eq_none_iff (v : FileVersion) :
    handle_incomplete_version v = none ↔ v.status = Status.COMPLETE := by
  rw [handle_incomplete_version]
  cases hs : v.status <;> simp [hs, UPLOAD_PENDING_ERROR, UPLOAD_FAILED_ERROR]

/-! ## The claims -/

/-- Claim C1: for every FileRecord, at every state reachable by any
sequence of getOrCreateRecord, createPendingVersion, resolvePendingVersion
and cancelPendingVersion operations, the number of versions in PENDING
state is at most 1. -/
theorem at_most_one_pending_reachable (ops : List Op) (p : String)
    (r : FileRecord) (h : (p, r) ∈ runOps ops) : pendingCount r ≤ 1 := by
  rw [runOps] at h
  exact storeInv_foldl ops [] (by intro p r h; simp at h) p r h

/-- Witness for C1: a concrete reachable state with one pending version. -/
theorem at_most_one_pending_reachable_witness :
    ("a", FileRecord.mk [⟨"u", "t", Status.PENDING, none, none⟩]) ∈
      runOps [Op.getOrCreate "a", Op.createPending "a" "u" "t"] ∧
    pendingCount ⟨[⟨"u", "t", Status.PENDING, none, none⟩]⟩ ≤ 1 :=
  ⟨by decide, at_most_one_pending_reachable
    [Op.getOrCreate "a", Op.createPending "a" "u" "t"] "a" _ (by decide)⟩

/-- Claim C5: for both webhook handlers, a request whose detached signature
does not verify is rejected with a bad-request "Invalid signature" error and
the store is returned unchanged: no FileRecord is created or looked up and
no version is created, resolved, or cancelled. -/
theorem invalid_signature_rejected_before_mutation
    (users : List String) (sp : StartPayload) (fp : FinishPayload)
    (path : String) (store : Store) :
    osf_storage_upload_start_hook users false sp path store
      = (store, .error (.httpError (make_error BAD_REQUEST "Invalid signature"))) ∧
    osf_storage_upload_finish_hook path false fp store
      = (store, .error (.httpError (make_error BAD_REQUEST "Invalid signature"))) :=
  ⟨rfl, rfl⟩

/-- Claim C2: when the record at the path already holds a PENDING version,
`create_pending_version` fails with `PathLockedError`, and the upload-start
hook surfaces this as HTTP 409 Conflict with reason "File path is locked",
returning the store unchanged (so the record's version list is unchanged). -/
theorem path_locked_create_rejected
    (users : List String) (store : Store) (path uid sig : String)
    (record : FileRecord)
    (hlookup : store.lookup path = some record)
    (hpending : hasPendingVersion record = true)
    (huser : users.contains uid = true) :
    create_pending_version record uid sig = .error .PathLockedError ∧
    osf_storage_upload_start_hook users true ⟨some uid, some sig⟩ path store
      = (store, .error (.httpError (make_error CONFLICT "File path is locked"))) := by
  have hc : create_pending_version record uid sig = .error .PathLockedError := by
    rw [create_pending_version, hpending]
    rfl
  have hmem : uid ∈ users := by simpa using huser
  refine ⟨hc, ?_⟩
  simp [osf_storage_upload_start_hook, validate_start_hook_payload, huser,
    hmem, get_or_create, hlookup, hc]

/-- Witness for C2: a concrete locked record. -/
theorem path_locked_create_rejected_witness :
    ([("p", pendingOnlyRecord)] : Store).lookup "p" = some pendingOnlyRecord ∧
    hasPendingVersion pendingOnlyRecord = true ∧
    ["u"].contains "u" = true ∧
    osf_storage_upload_start_hook ["u"] true ⟨some "u", some "t2"⟩ "p"
        [("p", pendingOnlyRecord)]
      = ([("p", pendingOnlyRecord)],
          .error (.httpError (make_error CONFLICT "File path is locked"))) :=
  ⟨by decide, by decide, by decide,
    (path_locked_create_rejected ["u"] [("p", pendingOnlyRecord)] "p" "u" "t2"
      pendingOnlyRecord (by decide) (by decide) (by decide)).2⟩

/-- Claim C3: when the record's current version is PENDING, resolving or
cancelling with a token different from the stored one fails with
`PendingSignatureMismatchError`, the finish hook surfaces this as a
bad-request "Invalid upload signature" error, and the store — hence the
pending version — is unchanged. -/
theorem signature_mismatch_rejected
    (store : Store) (path sig loc meta : String) (record : FileRecord)
    (v : FileVersion)
    (hlookup : store.lookup path = some record)
    (hlast : record.versions.getLast? = some v)
    (hst : v.status = Status.PENDING)
    (hne : sig ≠ v.signature) :
    resolve_pending_version record sig loc meta
      = .error .PendingSignatureMismatchError ∧
    cancel_pending_version record sig = .error .PendingSignatureMismatchError ∧
    osf_storage_upload_finish_hook path true
        ⟨some "success", some sig, some loc, some meta⟩ store
      = (store,
          .error (.httpError (make_error BAD_REQUEST "Invalid upload signature"))) ∧
    osf_storage_upload_finish_hook path true ⟨some "error", some sig, none, none⟩
        store
      = (store,
          .error (.httpError (make_error BAD_REQUEST "Invalid upload signature"))) := by
  have hres : resolve_pending_version record sig loc meta
      = .error .PendingSignatureMismatchError := by
    rw [resolve_pending_version, hlast]
    simp [hst, hne]
  have hcan : cancel_pending_version record sig
      = .error .PendingSignatureMismatchError := by
    rw [cancel_pending_version, hlast]
    simp [hst, hne]
  refine ⟨hres, hcan, ?_, ?_⟩
  · simp [osf_storage_upload_finish_hook, find_by_path, hlookup,
      finish_upload_success, hres, handle_finish_errors]
  · simp [osf_storage_upload_finish_hook, find_by_path, hlookup,
      finish_upload_error, hcan, handle_finish_errors]

/-- Witness for C3: a mismatched token on a concrete pending record. -/
theorem signature_mismatch_rejected_witness :
    ([("p", pendingOnlyRecord)] : Store).lookup "p" = some pendingOnlyRecord ∧
    pendingOnlyRecord.versions.getLast?
      = some ⟨"u", "t", Status.PENDING, none, none⟩ ∧
    osf_storage_upload_finish_hook "p" true
        ⟨some "success", some "wrong", some "L", some "M"⟩
        [("p", pendingOnlyRecord)]
      = ([("p", pendingOnlyRecord)],
          .error (.httpError (make_error BAD_REQUEST "Invalid upload signature"))) :=
  ⟨by decide, by decide,
    (signature_mismatch_rejected [("p", pendingOnlyRecord)] "p" "wrong" "L" "M"
      pendingOnlyRecord ⟨"u", "t", Status.PENDING, none, none⟩
      (by decide) (by decide) (by decide) (by decide)).2.2.1⟩

/-- Claim C4: when the record's current version is already COMPLETE or
FAILED, resolving and cancelling fail with `VersionNotPendingError`, and
the finish hook surfaces this as a bad-request "No pending upload" error,
returning the store unchanged. -/
theorem version_not_pending_rejected
    (store : Store) (path sig loc meta : String) (record : FileRecord)
    (v : FileVersion)
    (hlookup : store.lookup path = some record)
    (hlast : record.versions.getLast? = some v)
    (hst : v.status = Status.COMPLETE ∨ v.status = Status.FAILED) :
    resolve_pending_version record sig loc meta = .error .VersionNotPendingError ∧
    cancel_pending_version record sig = .error .VersionNotPendingError ∧
    osf_storage_upload_finish_hook path true
        ⟨some "success", some sig, some loc, some meta⟩ store
      = (store, .error (.httpError (make_error BAD_REQUEST "No pending upload"))) ∧
    osf_storage_upload_finish_hook path true ⟨some "error", some sig, none, none⟩
        store
      = (store, .error (.httpError (make_error BAD_REQUEST "No pending upload"))) := by
  have hnp : v.status ≠ Status.PENDING := by
    rcases hst with h | h <;> rw [h] <;> intro hcontra <;> exact absurd hcontra (by simp)
  have hres : resolve_pending_version record sig loc meta
      = .error .VersionNotPendingError := by
    rw [resolve_pending_version, hlast]
    simp [hnp]
  have hcan : cancel_pending_version record sig = .error .VersionNotPendingError := by
    rw [cancel_pending_version, hlast]
    simp [hnp]
  refine ⟨hres, hcan, ?_, ?_⟩
  · simp [osf_storage_upload_finish_hook, find_by_path, hlookup,
      finish_upload_success, hres, handle_finish_errors]
  · simp [osf_storage_upload_finish_hook, find_by_path, hlookup,
      finish_upload_error, hcan, handle_finish_errors]

/-- Witness for C4: a duplicate resolution of a concrete completed record. -/
theorem version_not_pending_rejected_witness :
    osf_storage_upload_finish_hook "p" true
        ⟨some "success", some "t", some "L", some "M"⟩
        [("p", FileRecord.mk
          [⟨"u", "t", Status.COMPLETE, some "L0", some "M0"⟩])]
      = ([("p", ⟨[⟨"u", "t", Status.COMPLETE, some "L0", some "M0"⟩]⟩)],
          .error (.httpError (make_error BAD_REQUEST "No pending upload"))) :=
  (version_not_pending_rejected
    [("p", ⟨[⟨"u", "t", Status.COMPLETE, some "L0", some "M0"⟩]⟩)]
    "p" "t" "L" "M" ⟨[⟨"u", "t", Status.COMPLETE, some "L0", some "M0"⟩]⟩
    ⟨"u", "t", Status.COMPLETE, some "L0", some "M0"⟩
    (by decide) (by decide) (Or.inl (by decide))).2.2.1

/-- Claim C6: a read that resolves to a PENDING version is rejected with
the "upload in progress" error, which is a different error value from the
bare not-found error; a FAILED version is rejected with the "upload failed"
error; and `get_version` only ever returns versions in COMPLETE state. -/
theorem incomplete_version_gate (w : FileVersion) (path : String)
    (store : Store) (vs : Option String) (idx : Int) (ver : FileVersion)
    (r : FileRecord) :
    (w.status = Status.PENDING →
      handle_incomplete_version w = some UPLOAD_PENDING_ERROR) ∧
    (w.status = Status.FAILED →
      handle_incomplete_version w = some UPLOAD_FAILED_ERROR) ∧
    (handle_incomplete_version w = none ↔ w.status = Status.COMPLETE) ∧
    UPLOAD_PENDING_ERROR ≠ HTTPError.mk NOT_FOUND none ∧
    UPLOAD_PENDING_ERROR ≠ UPLOAD_FAILED_ERROR ∧
    (get_version path store vs = .ok (idx, ver, r) →
      ver.status = Status.COMPLETE) := by
  refine ⟨?_, ?_, handle_incomplete_version_eq_none_iff w, by decide, by decide, ?_⟩
  · intro h
    rw [handle_incomplete_version]
    simp [h]
  · intro h
    rw [handle_incomplete_version]
    simp [h]
  · intro h
    rw [get_version] at h
    cases hf : find_by_path path store with
    | none => rw [hf] at h; exact absurd h (by simp)
    | some record =>
      rw [hf] at h
      have h2 : (match get_version_helper record vs with
          | Except.error e => Except.error e
          | Except.ok iv =>
            match handle_incomplete_version iv.2 with
            | some e => Except.error (PyException.httpError e)
            | none => Except.ok (iv.1, iv.2, record))
          = Except.ok (idx, ver, r) := h
      cases hg : get_version_helper record vs with
      | error e => rw [hg] at h2; exact absurd h2 (by simp)
      | ok iv =>
        rw [hg] at h2
        have h3 : (match handle_incomplete_version iv.2 with
            | some e => Except.error (PyException.httpError e)
            | none => (Except.ok (iv.1, iv.2, record) :
                Except PyException (Int × FileVersion × FileRecord)))
            = Except.ok (idx, ver, r) := h2
        cases hiv : handle_incomplete_version iv.2 with
        | some e => rw [hiv] at h3; exact absurd h3 (by simp)
        | none =>
          rw [hiv] at h3
          simp only [Except.ok.injEq, Prod.mk.injEq] at h3
          rw [← h3.2.1]
          exact (handle_incomplete_version_eq_none_iff iv.2).mp hiv

/-- Witness for C6: the gate at a concrete pending version. -/
theorem incomplete_version_gate_witness :
    handle_incomplete_version ⟨"u", "t", Status.PENDING, none, none⟩
      = some UPLOAD_PENDING_ERROR :=
  (incomplete_version_gate ⟨"u", "t", Status.PENDING, none, none⟩ "p" [] none
    1 ⟨"u", "t", Status.PENDING, none, none⟩ pendingOnlyRecord).1 rfl

/-- Claim C7: with no `version` query parameter the read selects
`versions[-1]` and reports the one-based index `len(versions)`; a
non-numeric specifier or an integer below 1 is surfaced as a bad-request
"Invalid version" error; an integer index above the number of versions is
surfaced as not-found. -/
theorem version_specifier_semantics
    (record : FileRecord) (v : FileVersion) (s : String) (i : Int)
    (hlast : record.versions.getLast? = some v) :
    get_version_helper record none = .ok ((record.versions.length : Int), v) ∧
    (pyInt s = none →
      get_version_helper record (some s)
        = .error (.httpError (make_error BAD_REQUEST "Invalid version"))) ∧
    (pyInt s = some i → i < 1 →
      get_version_helper record (some s)
        = .error (.httpError (make_error BAD_REQUEST "Invalid version"))) ∧
    (pyInt s = some i → 1 ≤ i → (record.versions.length : Int) < i →
      get_version_helper record (some s)
        = .error (.httpError ⟨NOT_FOUND, none⟩)) := by
  refine ⟨?_, ?_, ?_, ?_⟩
  · rw [get_version_helper, hlast]
  · intro h
    rw [get_version_helper, parse_version_specifier, h]
  · intro h hlt
    rw [get_version_helper, parse_version_specifier, h]
    simp [hlt]
  · intro h hge hgt
    have hnone : record.versions[i.toNat - 1]? = none := by
      rw [List.getElem?_eq_none_iff]
      omega
    have hp : parse_version_specifier (some s) = .ok i := by
      rw [parse_version_specifier, h]
      simp [not_lt.mpr hge]
    rw [get_version_helper]
    simp only [hp]
    simp [hnone]

/-- Witness for C7: a concrete two-version record with specifier "99". -/
theorem version_specifier_semantics_witness :
    get_version_helper
        ⟨[⟨"u", "t1", Status.COMPLETE, some "L", some "M"⟩,
          ⟨"u", "t2", Status.COMPLETE, some "L2", some "M2"⟩]⟩ (some "99")
      = .error (.httpError ⟨NOT_FOUND, none⟩) ∧
    get_version_helper
        ⟨[⟨"u", "t1", Status.COMPLETE, some "L", some "M"⟩,
          ⟨"u", "t2", Status.COMPLETE, some "L2", some "M2"⟩]⟩ (some "abc")
      = .error (.httpError (make_error BAD_REQUEST "Invalid version")) :=
  ⟨(version_specifier_semantics
      ⟨[⟨"u", "t1", Status.COMPLETE, some "L", some "M"⟩,
        ⟨"u", "t2", Status.COMPLETE, some "L2", some "M2"⟩]⟩
      ⟨"u", "t2", Status.COMPLETE, some "L2", some "M2"⟩ "99" 99
      (by decide)).2.2.2 (by decide) (by decide) (by decide),
   (version_specifier_semantics
      ⟨[⟨"u", "t1", Status.COMPLETE, some "L", some "M"⟩,
        ⟨"u", "t2", Status.COMPLETE, some "L2", some "M2"⟩]⟩
      ⟨"u", "t2", Status.COMPLETE, some "L2", some "M2"⟩ "abc" 0
      (by decide)).2.1 (by decide)⟩

/-- Claim C8 (evaluation at the failing input): an upload-finish request
with status "success" whose payload omits the optional `location` field
reaches `payload['location']` in `finish_upload_success`, and no handler
catches the resulting `KeyError` — `handle_finish_errors` only catches the
two model errors — so the hook ends in an uncaught `KeyError`, which is
not an `HTTPError` response. -/
theorem finish_success_missing_location_is_uncaught :
    osf_storage_upload_finish_hook "p" true
        ⟨some "success", some "t", none, some "m"⟩ [("p", pendingOnlyRecord)]
      = ([("p", pendingOnlyRecord)], .error (.keyError "location")) ∧
    ∀ e : HTTPError, PyException.keyError "location" ≠ .httpError e :=
  ⟨rfl, fun e h => by injection h⟩

/-- Claim C9: on a record whose version list is empty, a read with no
version parameter evaluates `versions[-1]` and dies with an uncaught
IndexError, unlike an explicit out-of-range index which yields the
not-found HTTPError. -/
theorem empty_versions_latest_uncaught_index_error
    (record : FileRecord) (path : String) (store : Store)
    (hempty : record.versions = [])
    (hlookup : store.lookup path = some record) :
    get_version_helper record none = .error .indexError ∧
    get_version path store none = .error .indexError ∧
    get_version_helper record (some "1")
      = .error (.httpError ⟨NOT_FOUND, none⟩) ∧
    (PyException.indexError ≠ .httpError ⟨NOT_FOUND, none⟩) := by
  have hhelper : get_version_helper record none = .error .indexError := by
    rw [get_version_helper, hempty]
    rfl
  refine ⟨hhelper, ?_, ?_, by decide⟩
  · rw [get_version, find_by_path, hlookup]
    simp [hhelper]
  · rw [get_version_helper]
    have hp : parse_version_specifier (some "1") = .ok 1 := rfl
    simp only [hp]
    simp [hempty]

/-- Witness for C9: the empty record created by `get_or_create` on a fresh
path. -/
theorem empty_versions_latest_uncaught_index_error_witness :
    (FileRecord.mk []).versions = [] ∧
    ([("p", FileRecord.mk [])] : Store).lookup "p" = some (FileRecord.mk []) ∧
    get_version "p" [("p", FileRecord.mk [])] none = .error .indexError :=
  ⟨rfl, by decide,
    (empty_versions_latest_uncaught_index_error (FileRecord.mk []) "p"
      [("p", FileRecord.mk [])] rfl (by decide)).2.1⟩

/-- Claim C10: an upload-start request whose signature verifies but whose
payload lacks the user or uploadSignature keys, or names a user that does
not load, fails with an HTTP bad-request and the store is unchanged — no
FileRecord is created and no pending version appended; and whenever the
hook succeeds, the named user exists. -/
theorem start_hook_requires_existing_user
    (users : List String) (payload : StartPayload) (path : String)
    (store : Store) :
    ((payload.user = none ∨ payload.uploadSignature = none ∨
        (∀ u, payload.user = some u → users.contains u = false)) →
      osf_storage_upload_start_hook users true payload path store
        = (store, .error (.httpError ⟨BAD_REQUEST, none⟩))) ∧
    (∀ (store' : Store) (resp : String),
      osf_storage_upload_start_hook users true payload path store
        = (store', .ok resp) →
      ∃ u, payload.user = some u ∧ users.contains u = true) := by
  constructor
  · intro hbad
    obtain ⟨hu, hs⟩ := payload
    rcases hu with _ | u
    · rfl
    · rcases hs with _ | sg
      · rfl
      · rcases hbad with hbad | hbad | hbad
        · exact absurd hbad (by simp)
        · exact absurd hbad (by simp)
        · have hc := hbad u rfl
          have hmem : u ∉ users := by simpa using hc
          rw [osf_storage_upload_start_hook]
          simp [validate_start_hook_payload, hmem]
  · intro store' resp h
    obtain ⟨hu, hs⟩ := payload
    rcases hu with _ | u
    · exact absurd h (by rw [osf_storage_upload_start_hook]; simp [validate_start_hook_payload])
    · rcases hs with _ | sg
      · exact absurd h (by rw [osf_storage_upload_start_hook]; simp [validate_start_hook_payload])
      · refine ⟨u, rfl, ?_⟩
        by_cases hc : users.contains u
        · exact hc
        · have hmem : u ∉ users := by simpa using hc
          rw [osf_storage_upload_start_hook] at h
          simp [validate_start_hook_payload, hmem] at h

/-- Witness for C10: a payload naming a user that does not exist. -/
theorem start_hook_requires_existing_user_witness :
    osf_storage_upload_start_hook ["alice"] true ⟨some "mallory", some "t"⟩
        "p" []
      = ([], .error (.httpError ⟨BAD_REQUEST, none⟩)) :=
  (start_hook_requires_existing_user ["alice"] ⟨some "mallory", some "t"⟩
    "p" []).1 (Or.inr (Or.inr (fun u hu => by
      injection hu with h1
      rw [← h1]
      decide)))

end OsfStorage
